import Mathlib

/-!
Shallow embedding of the synchronization / redundant-upload engine of the
nsite command-line tool (source files `src/upload.ts` and `src/cli.ts`).

The embedding keeps the source structure: `processUploads` is the batch
upload entry point of `src/upload.ts`; the purge loop of the `upload`
command in `src/cli.ts` is embedded as `purgeFile` / `purgeLoop`; the
bounded-concurrency queue of the `p-limit` dependency (not part of this
repository) is modelled from the spec as an explicit state machine.

Outcomes of external calls (local file read, per-endpoint blob upload,
pointer-record publish, blob deletion, record retraction) are supplied by
explicit oracles, so every combination of failures the source can observe
is a concrete input of the embedded functions.  The cooperative
single-threaded tasks are run in submission order; all stated properties
are insensitive to completion order.
-/

namespace NsiteCli

/-- One entry of a `FileList` (`src/types.ts`, as used by `src/upload.ts`
and `src/cli.ts`): local path, logical remote path, content hash,
modification time, and whether a remote pointer record (`file.event`,
the `sourceRecord` back-reference) is attached. -/
structure FileEntry where
  localPath : String
  remotePath : String
  sha256 : String
  changedAt : Nat
  hasEvent : Bool
  eventId : String
deriving Repr, DecidableEq

/-- Per-file element of `results.fileResults` in `processUploads`
(`src/upload.ts` line 49): `{ file, success, uploadedServers, totalServers }`. -/
structure FileResult where
  file : String
  success : Bool
  uploadedServers : Nat
  totalServers : Nat
deriving Repr, DecidableEq

/-- The aggregate `results` object of `processUploads` (`src/upload.ts`
lines 46-50). -/
structure BatchResults where
  successful : Nat
  failed : Nat
  fileResults : List FileResult
deriving Repr, DecidableEq

/-- Environment oracle for one file task of `processUploads`:
either `fs.readFileSync` throws (`readError`), or the upload runs and
`accepts` tells which endpoints store the blob (the servers that end up in
the map returned by `multiServerUpload`), while `publishThrows` tells
whether the subsequent `publishNSiteEvent` call rejects. -/
inductive FileFate where
  | readError
  | uploadRuns (accepts : String → Bool) (publishThrows : Bool)

/-- Body of one `limit(async () => ...)` task of `processUploads`
(`src/upload.ts` lines 60-168), acting on the shared `results` object:

* `fs.readFileSync` throwing lands in the `catch` block (lines 148-163):
  `results.failed++` and a `{ success: false, uploadedServers: 0 }` entry;
* otherwise `uploadedServers` is the size of the map returned by
  `multiServerUpload` and `success = uploadedServers > 0` (lines 116-117);
* on `success`, `publishNSiteEvent` runs (line 120) before
  `results.successful++` (line 121); if it throws, control reaches the same
  `catch` block, so the file is recorded failed with `uploadedServers: 0`;
* with no accepting endpoint, `results.failed++` and a failure entry using
  the computed `uploadedServers` (lines 139-145). -/
def runFileTask (servers : List String) (fate : FileFate) (f : FileEntry)
    (results : BatchResults) : BatchResults :=
  match fate with
  | .readError =>
      { results with
        failed := results.failed + 1,
        fileResults := results.fileResults ++
          [⟨f.remotePath, false, 0, servers.length⟩] }
  | .uploadRuns accepts publishThrows =>
      let uploadedServers := (servers.filter accepts).length
      let success := decide (uploadedServers > 0)
      if success then
        if publishThrows then
          { results with
            failed := results.failed + 1,
            fileResults := results.fileResults ++
              [⟨f.remotePath, false, 0, servers.length⟩] }
        else
          { results with
            successful := results.successful + 1,
            fileResults := results.fileResults ++
              [⟨f.remotePath, true, uploadedServers, servers.length⟩] }
      else
        { results with
          failed := results.failed + 1,
          fileResults := results.fileResults ++
            [⟨f.remotePath, false, uploadedServers, servers.length⟩] }

/-- `processUploads` (`src/upload.ts` lines 19-183).  `pubkey` is
`ndk.activeUser?.pubkey`: absent, the function throws (line 29).  An empty
`filesToUpload` returns without a result object (line 34), embedded as
`Except.ok none`.  Otherwise the file tasks run (cooperatively, in
submission order) and the final `results` object is returned. -/
def processUploads (pubkey : Option String) (filesToUpload : List FileEntry)
    (blossomServers : List String) (fate : FileEntry → FileFate) :
    Except String (Option BatchResults) :=
  match pubkey with
  | none => .error "User Pubkey not found."
  | some _ =>
      if filesToUpload.length = 0 then
        .ok none
      else
        .ok (some (filesToUpload.foldl
          (fun r f => runFileTask blossomServers (fate f) f r) ⟨0, 0, []⟩))

/-- The `fileResults` entry that the task for file `f` appends, as a
function of that file's own fate alone. -/
def fileOutcome (servers : List String) (fate : FileFate) (f : FileEntry) :
    FileResult :=
  match fate with
  | .readError => ⟨f.remotePath, false, 0, servers.length⟩
  | .uploadRuns accepts publishThrows =>
      let uploadedServers := (servers.filter accepts).length
      if uploadedServers > 0 then
        if publishThrows then ⟨f.remotePath, false, 0, servers.length⟩
        else ⟨f.remotePath, true, uploadedServers, servers.length⟩
      else ⟨f.remotePath, false, uploadedServers, servers.length⟩

/-- A JavaScript numeric option value as `processUploads` receives it:
absent (`undefined`), `NaN` (e.g. `parseInt` of a non-numeric string in
`src/cli.ts` line 190), or an actual number. -/
inductive JSNum where
  | undef
  | nan
  | num (n : Int)
deriving Repr, DecidableEq

/-- JavaScript falsiness for a numeric value: `undefined`, `NaN` and `0`
are falsy. -/
def jsFalsy : JSNum → Bool
  | .undef => true
  | .nan => true
  | .num n => n == 0

/-- `const concurrency = options.concurrency || 5` (`src/upload.ts`
line 38): the JavaScript `||` operator yields the default whenever the
left operand is falsy. -/
def resolveConcurrency (concurrencyOption : JSNum) : JSNum :=
  if jsFalsy concurrencyOption then .num 5 else concurrencyOption

/-! ### The bounded-concurrency queue

Modelled from the spec: the `p-limit` dependency used at `src/upload.ts`
lines 41 and 60 is not part of this repository; the spec describes it as
"at most `concurrency` files are being uploaded at any instant; remaining
files queue in submission order but may complete out of order".  The model
is an explicit state machine: submitting a task enqueues it, a task starts
only while fewer than `concurrency` tasks are active, and a completion
frees a slot for the head of the queue. -/

/-- State of the limiter: number of running tasks, queued task ids in
submission order, started task ids in start order, and all submitted task
ids in submission order. -/
structure LimitState where
  active : Nat
  queue : List Nat
  started : List Nat
  submitted : List Nat
deriving Repr, DecidableEq

/-- The limiter starts the task at the head of the queue when a slot is
free. -/
def tryStart (concurrency : Nat) (s : LimitState) : LimitState :=
  if s.active < concurrency then
    match s.queue with
    | [] => s
    | t :: ts =>
        { s with
          active := s.active + 1,
          queue := ts,
          started := s.started ++ [t] }
  else s

/-- Observable events of the limiter: a new task is submitted, or some
running task completes. -/
inductive LimitEvent where
  | submit (id : Nat)
  | complete
deriving Repr, DecidableEq

/-- One step of the limiter: a submitted task joins the tail of the queue
and may start at once if a slot is free; a completion frees a slot and
starts the next queued task, if any. -/
def limitStep (concurrency : Nat) (s : LimitState) : LimitEvent → LimitState
  | .submit id =>
      tryStart concurrency
        { s with queue := s.queue ++ [id], submitted := s.submitted ++ [id] }
  | .complete => tryStart concurrency { s with active := s.active - 1 }

/-- Run the limiter from the empty initial state over a sequence of
events. -/
def runLimit (concurrency : Nat) (events : List LimitEvent) : LimitState :=
  events.foldl (limitStep concurrency) ⟨0, [], [], []⟩

/-! ### The purge loop

Embedding of the purge section of the `upload` command
(`src/cli.ts` lines 196-224).  External calls may throw; thrown errors from
`BlossomClient.deleteBlob` and from `file.event.delete` are caught by the
enclosing `try`/`catch` blocks, which log and continue.  The oracles
`delThrows` (per server and hash) and `retractThrows` (per event id) supply
the outcome of each call.  The embedding returns the trace of issued calls
together with the list of logged error messages. -/

/-- One external call issued by the purge loop: the delete-authorization
signing (`BlossomClient.createDeleteAuth`, `src/cli.ts` line 199), a blob
deletion against one server carrying the authorization proof it was given
(`BlossomClient.deleteBlob`, line 207), or the pointer-record retraction
(`file.event.delete`, line 217). -/
inductive PurgeCall where
  | signAuth (sha : String)
  | blobDelete (server : String) (sha : String) (authSha : String)
  | retractEvent (eventId : String)
deriving Repr, DecidableEq

/-- The delete-authorization proof produced by
`BlossomClient.createDeleteAuth(signEventTemplate, file.sha256)`,
identified by the hash it authorizes. -/
def createDeleteAuth (sha : String) : String := sha

/-- `BlossomClient.deleteBlob(s, file.sha256, { auth: deleteAuth })`
(`src/cli.ts` line 207): issues the call, which throws according to the
oracle. -/
def deleteBlobCall (delThrows : String → String → Bool) (server sha authSha : String) :
    PurgeCall × Except String Unit :=
  (.blobDelete server sha authSha,
   if delThrows server sha then
     .error ("Error deleting blob " ++ sha ++ " from server " ++ server)
   else .ok ())

/-- The inner `for await (const s of blossomServers)` loop
(`src/cli.ts` lines 200-211): each deletion attempt is wrapped in its own
`try`/`catch`, so a thrown error is logged and the loop continues with the
next server. -/
def deleteFromServers (delThrows : String → String → Bool)
    (servers : List String) (sha authSha : String) :
    List PurgeCall × List String :=
  servers.foldl
    (fun acc s =>
      let step := deleteBlobCall delThrows s sha authSha
      match step.2 with
      | .ok _ => (acc.1 ++ [step.1], acc.2)
      | .error e => (acc.1 ++ [step.1], acc.2 ++ [e]))
    ([], [])

/-- Processing of one file of `toDelete` (`src/cli.ts` lines 198-222):
files without `file.event` are skipped entirely; otherwise one
delete-authorization proof is created, every server deletion is attempted
with that proof, and afterwards the pointer record is retracted inside its
own `try`/`catch` (a thrown retraction error is logged, the file is not
revisited). -/
def purgeFile (delThrows : String → String → Bool)
    (retractThrows : String → Bool) (servers : List String) (f : FileEntry) :
    List PurgeCall × List String :=
  if f.hasEvent then
    let deleteAuth := createDeleteAuth f.sha256
    let dels := deleteFromServers delThrows servers f.sha256 deleteAuth
    let retractErrs :=
      if retractThrows f.eventId then
        ["Error deleting event " ++ f.eventId ++ " from the relays."]
      else []
    (PurgeCall.signAuth f.sha256 :: dels.1 ++ [PurgeCall.retractEvent f.eventId],
     dels.2 ++ retractErrs)
  else ([], [])

/-- The outer `for await (const file of toDelete)` loop
(`src/cli.ts` lines 197-223): every file is processed in order; no caught
error of an earlier file affects a later one. -/
def purgeLoop (delThrows : String → String → Bool)
    (retractThrows : String → Bool) (servers : List String)
    (toDelete : List FileEntry) : List PurgeCall × List String :=
  toDelete.foldl
    (fun acc f =>
      let step := purgeFile delThrows retractThrows servers f
      (acc.1 ++ step.1, acc.2 ++ step.2))
    ([], [])

/-- Concrete sample files used in witness and counterexample inputs. -/
def sampleFileA : FileEntry :=
  ⟨"site/a.html", "/a.html", "hashA", 100, false, ""⟩

def sampleFileB : FileEntry :=
  ⟨"site/b.html", "/b.html", "hashB", 200, false, ""⟩

def sampleDeleteFile : FileEntry :=
  ⟨"", "/old.html", "hashOld", 50, true, "event1"⟩

def sampleOrphanFile : FileEntry :=
  ⟨"", "/orphan.html", "hashOrphan", 60, false, ""⟩

/-- `true` on the pointer-record retraction call. -/
def isRetractCall : PurgeCall → Bool
  | .retractEvent _ => true
  | _ => false

/-- `true` on the delete-authorization signing call. -/
def isSignCall : PurgeCall → Bool
  | .signAuth _ => true
  | _ => false

/-- One task of `processUploads` adds exactly one outcome entry and bumps
exactly one of the two counters, according to `fileOutcome`. -/
theorem runFileTask_eq (servers : List String) (fate : FileFate) (f : FileEntry)
    (r : BatchResults) :
    runFileTask servers fate f r =
      { successful :=
          r.successful + (if (fileOutcome servers fate f).success then 1 else 0),
        failed :=
          r.failed + (if (fileOutcome servers fate f).success then 0 else 1),
        fileResults := r.fileResults ++ [fileOutcome servers fate f] } := by
  cases fate with
  | readError => simp [runFileTask, fileOutcome]
  | uploadRuns accepts publishThrows =>
      by_cases h : 0 < (servers.filter accepts).length
      · cases publishThrows <;>
          simp [runFileTask, fileOutcome, h]
      · simp [runFileTask, fileOutcome, h]

/-- The batch fold of `processUploads` decomposes filewise: the final
counters count the per-file outcomes and `fileResults` collects one entry
per file, each depending only on that file and its own fate. -/
theorem foldl_runFileTask (servers : List String) (fate : FileEntry → FileFate)
    (files : List FileEntry) (r : BatchResults) :
    files.foldl (fun acc f => runFileTask servers (fate f) f acc) r =
      { successful :=
          r.successful +
            files.countP (fun f => (fileOutcome servers (fate f) f).success),
        failed :=
          r.failed +
            files.countP (fun f => !(fileOutcome servers (fate f) f).success),
        fileResults :=
          r.fileResults ++ files.map (fun f => fileOutcome servers (fate f) f) } := by
  induction files generalizing r with
  | nil => simp
  | cons f fs ih =>
      rw [List.foldl_cons, runFileTask_eq, ih]
      simp only [List.countP_cons, List.map_cons, List.append_assoc,
        List.singleton_append]
      refine congrArg₂ (fun a b => BatchResults.mk a b _) ?_ ?_ <;>
        cases hs : (fileOutcome servers (fate f) f).success <;> simp [hs] <;> omega

/-- On a non-empty file list with an active pubkey, `processUploads`
returns the filewise aggregate. -/
theorem processUploads_spec (pk : String) (files : List FileEntry)
    (servers : List String) (fate : FileEntry → FileFate) (h : files ≠ []) :
    processUploads (some pk) files servers fate =
      .ok (some
        { successful :=
            files.countP (fun f => (fileOutcome servers (fate f) f).success),
          failed :=
            files.countP (fun f => !(fileOutcome servers (fate f) f).success),
          fileResults :=
            files.map (fun f => fileOutcome servers (fate f) f) }) := by
  have hlen : files.length ≠ 0 := by
    simpa [List.length_eq_zero] using h
  simp [processUploads, hlen, foldl_runFileTask]

/-- Counting a predicate and its complement covers a list. -/
theorem countP_not_add {α : Type} (p : α → Bool) (l : List α) :
    l.countP p + l.countP (fun a => !(p a)) = l.length := by
  induction l with
  | nil => rfl
  | cons a l ih =>
      cases h : p a <;> simp [List.countP_cons, h] <;> omega

/-- Inverting a successful `processUploads` run: the returned object is
exactly the filewise aggregate. -/
theorem processUploads_ok_some (pk : String) (files : List FileEntry)
    (servers : List String) (fate : FileEntry → FileFate) (r : BatchResults)
    (h : processUploads (some pk) files servers fate = Except.ok (some r)) :
    r = { successful :=
            files.countP (fun f => (fileOutcome servers (fate f) f).success),
          failed :=
            files.countP (fun f => !(fileOutcome servers (fate f) f).success),
          fileResults :=
            files.map (fun f => fileOutcome servers (fate f) f) } := by
  by_cases hne : files = []
  · subst hne
    simp [processUploads] at h
  · rw [processUploads_spec pk files servers fate hne] at h
    simpa using h.symm

/-- The recorded per-file fields are consistent in every branch:
`success` holds exactly when the recorded `uploadedServers` is positive. -/
theorem fileOutcome_success_iff (servers : List String) (fate : FileFate)
    (f : FileEntry) :
    (fileOutcome servers fate f).success =
      decide (0 < (fileOutcome servers fate f).uploadedServers) := by
  cases fate with
  | readError => simp [fileOutcome]
  | uploadRuns accepts publishThrows =>
      by_cases h : 0 < (servers.filter accepts).length
      · cases publishThrows <;> simp [fileOutcome, h]
      · simp [fileOutcome, h]

/-- Every branch records the file under its remote path. -/
theorem fileOutcome_file (servers : List String) (fate : FileFate)
    (f : FileEntry) :
    (fileOutcome servers fate f).file = f.remotePath := by
  cases fate with
  | readError => simp [fileOutcome]
  | uploadRuns accepts publishThrows =>
      by_cases h : 0 < (servers.filter accepts).length
      · cases publishThrows <;> simp [fileOutcome, h]
      · simp [fileOutcome, h]

/-- Every branch records the full endpoint count as `totalServers`. -/
theorem fileOutcome_totalServers (servers : List String) (fate : FileFate)
    (f : FileEntry) :
    (fileOutcome servers fate f).totalServers = servers.length := by
  cases fate with
  | readError => simp [fileOutcome]
  | uploadRuns accepts publishThrows =>
      by_cases h : 0 < (servers.filter accepts).length
      · cases publishThrows <;> simp [fileOutcome, h]
      · simp [fileOutcome, h]

/-- The server loop of the purge issues one deletion call per server, in
order, all carrying the same authorization, regardless of which calls
throw. -/
theorem deleteFromServers_calls (delThrows : String → String → Bool)
    (servers : List String) (sha authSha : String) :
    (deleteFromServers delThrows servers sha authSha).1 =
      servers.map (fun s => PurgeCall.blobDelete s sha authSha) := by
  suffices hgen : ∀ acc : List PurgeCall × List String,
      (servers.foldl
        (fun acc s =>
          let step := deleteBlobCall delThrows s sha authSha
          match step.2 with
          | .ok _ => (acc.1 ++ [step.1], acc.2)
          | .error e => (acc.1 ++ [step.1], acc.2 ++ [e]))
        acc).1 =
      acc.1 ++ servers.map (fun s => PurgeCall.blobDelete s sha authSha) by
    simpa [deleteFromServers] using hgen ([], [])
  induction servers with
  | nil => intro acc; simp
  | cons s ss ih =>
      intro acc
      by_cases hthrow : delThrows s sha
      · simp only [List.foldl_cons, List.map_cons]
        rw [show (let step := deleteBlobCall delThrows s sha authSha
              match step.2 with
              | .ok _ => (acc.1 ++ [step.1], acc.2)
              | .error e => (acc.1 ++ [step.1], acc.2 ++ [e])) =
            (acc.1 ++ [PurgeCall.blobDelete s sha authSha],
             acc.2 ++ ["Error deleting blob " ++ sha ++ " from server " ++ s])
          from by simp [deleteBlobCall, hthrow]]
        rw [ih]
        simp
      · simp only [List.foldl_cons, List.map_cons]
        rw [show (let step := deleteBlobCall delThrows s sha authSha
              match step.2 with
              | .ok _ => (acc.1 ++ [step.1], acc.2)
              | .error e => (acc.1 ++ [step.1], acc.2 ++ [e])) =
            (acc.1 ++ [PurgeCall.blobDelete s sha authSha], acc.2)
          from by simp [deleteBlobCall, hthrow]]
        rw [ih]
        simp

/-- Trace of one purged file that has a pointer record: one signing call,
then one deletion per server reusing that proof, then exactly one
retraction — independent of the throw oracles. -/
theorem purgeFile_calls (delThrows : String → String → Bool)
    (retractThrows : String → Bool) (servers : List String) (f : FileEntry)
    (h : f.hasEvent = true) :
    (purgeFile delThrows retractThrows servers f).1 =
      PurgeCall.signAuth f.sha256 ::
        (servers.map
          (fun s => PurgeCall.blobDelete s f.sha256 (createDeleteAuth f.sha256)) ++
         [PurgeCall.retractEvent f.eventId]) := by
  simp [purgeFile, h, deleteFromServers_calls]

/-- The purge loop concatenates the per-file traces and logs, file by
file: each file contributes exactly once, unaffected by earlier files. -/
theorem purgeLoop_eq (delThrows : String → String → Bool)
    (retractThrows : String → Bool) (servers : List String)
    (toDelete : List FileEntry) :
    purgeLoop delThrows retractThrows servers toDelete =
      (toDelete.flatMap
        (fun g => (purgeFile delThrows retractThrows servers g).1),
       toDelete.flatMap
        (fun g => (purgeFile delThrows retractThrows servers g).2)) := by
  suffices hgen : ∀ acc : List PurgeCall × List String,
      (toDelete.foldl
        (fun acc f =>
          let step := purgeFile delThrows retractThrows servers f
          (acc.1 ++ step.1, acc.2 ++ step.2))
        acc) =
      (acc.1 ++ toDelete.flatMap
        (fun g => (purgeFile delThrows retractThrows servers g).1),
       acc.2 ++ toDelete.flatMap
        (fun g => (purgeFile delThrows retractThrows servers g).2)) by
    simpa [purgeLoop] using hgen ([], [])
  induction toDelete with
  | nil => intro acc; simp
  | cons g gs ih =>
      intro acc
      simp only [List.foldl_cons, List.flatMap_cons]
      rw [ih]
      simp

/-- Invariant preservation for the limiter helper: starting a queued task
keeps the bound and moves the queue head to the started list. -/
theorem tryStart_inv (concurrency : Nat) (s : LimitState)
    (h1 : s.active ≤ concurrency)
    (h2 : s.started ++ s.queue = s.submitted) :
    (tryStart concurrency s).active ≤ concurrency ∧
    (tryStart concurrency s).started ++ (tryStart concurrency s).queue =
      (tryStart concurrency s).submitted := by
  unfold tryStart
  by_cases hc : s.active < concurrency
  · cases hq : s.queue with
    | nil => simpa [hc, hq] using ⟨h1, by simpa [hq] using h2⟩
    | cons t ts =>
        refine ⟨?_, ?_⟩
        · simp only [hc, if_true, hq]
          exact hc
        · simp only [hc, if_true, hq]
          rw [← h2, hq]
          simp
  · simpa [hc] using ⟨h1, h2⟩

/-- Invariant preservation for one limiter step. -/
theorem limitStep_inv (concurrency : Nat) (s : LimitState) (ev : LimitEvent)
    (h1 : s.active ≤ concurrency)
    (h2 : s.started ++ s.queue = s.submitted) :
    (limitStep concurrency s ev).active ≤ concurrency ∧
    (limitStep concurrency s ev).started ++ (limitStep concurrency s ev).queue =
      (limitStep concurrency s ev).submitted := by
  cases ev with
  | submit id =>
      refine tryStart_inv concurrency _ h1 ?_
      simp only []
      rw [← List.append_assoc, h2]
  | complete =>
      refine tryStart_inv concurrency _ ?_ h2
      exact le_trans (Nat.sub_le _ _) h1

/-- Invariant of the bounded-concurrency queue: after any event sequence,
at most `concurrency` tasks are active and the tasks started so far,
followed by the queued ones, list the submitted tasks in submission
order. -/
theorem runLimit_inv (concurrency : Nat) (events : List LimitEvent) :
    (runLimit concurrency events).active ≤ concurrency ∧
    (runLimit concurrency events).started ++ (runLimit concurrency events).queue =
      (runLimit concurrency events).submitted := by
  suffices hgen : ∀ s : LimitState, s.active ≤ concurrency →
      s.started ++ s.queue = s.submitted →
      (events.foldl (limitStep concurrency) s).active ≤ concurrency ∧
      (events.foldl (limitStep concurrency) s).started ++
          (events.foldl (limitStep concurrency) s).queue =
        (events.foldl (limitStep concurrency) s).submitted by
    exact hgen ⟨0, [], [], []⟩ (Nat.zero_le _) rfl
  induction events with
  | nil => intro s h1 h2; exact ⟨h1, h2⟩
  | cons ev evs ih =>
      intro s h1 h2
      have hstep := limitStep_inv concurrency s ev h1 h2
      exact ih (limitStep concurrency s ev) hstep.1 hstep.2

/-!  ## Claims  -/

/-- C1 counterexample.  One file, one endpoint that accepts the blob
(`(["s1"].filter (fun _ => true)).length = 1`, so the upload succeeded on
one endpoint), and a publish call that rejects.  The claim says the
aggregate still counts the file successful with a per-file outcome of
`success = true` and a positive succeeded-endpoint count; the code instead
reaches the per-file `catch` (`src/upload.ts` lines 148-163), producing
`successful = 0`, `failed = 1` and the outcome
`success = false, uploadedServers = 0` — so the claim is false at this
input. -/
theorem publish_failure_flips_outcome_cex :
    (["s1"].filter (fun _ => true)).length = 1 ∧
    processUploads (some "pk") [sampleFileA] ["s1"]
        (fun _ => FileFate.uploadRuns (fun _ => true) true) =
      Except.ok (some ⟨0, 1, [⟨"/a.html", false, 0, 1⟩]⟩) ∧
    (⟨0, 1, [⟨"/a.html", false, 0, 1⟩]⟩ : BatchResults).successful ≠ 1 ∧
    (⟨"/a.html", false, 0, 1⟩ : FileResult).success ≠ true :=
  ⟨rfl, rfl, by decide, by decide⟩

/-- C1 (amended): when at least one endpoint accepts the upload but the
publish (pointer-record) call fails, the error is caught by the same
per-file handler as an upload failure: the file is counted failed and its
recorded outcome has `success = false` and `uploadedServers = 0`; only the
counters and entry of that one file change. -/
theorem publish_failure_marks_file_failed (servers : List String)
    (accepts : String → Bool) (f : FileEntry) (r : BatchResults)
    (h : 0 < (servers.filter accepts).length) :
    runFileTask servers (.uploadRuns accepts true) f r =
      { r with
        failed := r.failed + 1,
        fileResults := r.fileResults ++
          [⟨f.remotePath, false, 0, servers.length⟩] } := by
  rw [runFileTask_eq]
  simp [fileOutcome, h]

/-- Witness for the amended C1 theorem at a concrete input. -/
theorem publish_failure_marks_file_failed_witness :
    0 < ((["s1"].filter (fun _ => true)).length) ∧
    runFileTask ["s1"] (.uploadRuns (fun _ => true) true) sampleFileA
        ⟨0, 0, []⟩ =
      ⟨0, 1, [⟨"/a.html", false, 0, 1⟩]⟩ :=
  ⟨by decide,
   publish_failure_marks_file_failed ["s1"] (fun _ => true) sampleFileA
     ⟨0, 0, []⟩ (by decide)⟩

/-- C2 counterexample.  On the empty file list, `processUploads` logs and
returns without a result object (`src/upload.ts` line 34), embedded as
`Except.ok none`: no aggregate `{ successful, failed, perFile }` tally is
produced, so the claim is false on the empty list. -/
theorem empty_list_returns_no_tally_cex :
    processUploads (some "pk") [] ["s1"] (fun _ => FileFate.readError) =
      Except.ok none :=
  rfl

/-- C2 (amended): for every NON-EMPTY input file list and every
combination of per-file, per-endpoint and publish failures, the call (with
an active user pubkey) returns the aggregate tally; the empty list instead
returns `undefined` after logging. -/
theorem nonempty_batch_returns_tally (pk : String) (files : List FileEntry)
    (servers : List String) (fate : FileEntry → FileFate)
    (h : files ≠ []) :
    ∃ r : BatchResults,
      processUploads (some pk) files servers fate = Except.ok (some r) :=
  ⟨_, processUploads_spec pk files servers fate h⟩

/-- Witness for the amended C2 theorem at a concrete input. -/
theorem nonempty_batch_returns_tally_witness :
    ([sampleFileA] : List FileEntry) ≠ [] ∧
    ∃ r : BatchResults,
      processUploads (some "pk") [sampleFileA] ["s1"]
          (fun _ => FileFate.readError) =
        Except.ok (some r) :=
  ⟨by simp,
   nonempty_batch_returns_tally "pk" [sampleFileA] ["s1"]
     (fun _ => FileFate.readError) (by simp)⟩

/-- C3: in every aggregate a file's recorded outcome has `success = true`
exactly when its recorded succeeded-endpoint count is positive; and in the
concrete at-least-one-of-N case (3 endpoints of which exactly one accepts,
publish succeeding) the outcome is `success = true` with
`uploadedServers = 1`. -/
theorem success_iff_some_endpoint (pk : String) (files : List FileEntry)
    (servers : List String) (fate : FileEntry → FileFate) (r : BatchResults)
    (h : processUploads (some pk) files servers fate = Except.ok (some r)) :
    r.fileResults.all
        (fun e => e.success == decide (0 < e.uploadedServers)) = true ∧
    processUploads (some "pk") [sampleFileA] ["s1", "s2", "s3"]
        (fun _ => FileFate.uploadRuns (fun s => s == "s2") false) =
      Except.ok (some ⟨1, 0, [⟨"/a.html", true, 1, 3⟩]⟩) := by
  refine ⟨?_, rfl⟩
  rw [processUploads_ok_some pk files servers fate r h]
  simp only [List.all_eq_true, List.mem_map]
  rintro e ⟨f, _, rfl⟩
  simp [fileOutcome_success_iff]

/-- Witness for the C3 theorem at a concrete input. -/
theorem success_iff_some_endpoint_witness :
    ((⟨1, 0, [⟨"/a.html", true, 1, 3⟩]⟩ : BatchResults).fileResults.all
        (fun e => e.success == decide (0 < e.uploadedServers)) = true) ∧
    processUploads (some "pk") [sampleFileA] ["s1", "s2", "s3"]
        (fun _ => FileFate.uploadRuns (fun s => s == "s2") false) =
      Except.ok (some ⟨1, 0, [⟨"/a.html", true, 1, 3⟩]⟩) :=
  success_iff_some_endpoint "pk" [sampleFileA] ["s1", "s2", "s3"]
    (fun _ => FileFate.uploadRuns (fun s => s == "s2") false)
    ⟨1, 0, [⟨"/a.html", true, 1, 3⟩]⟩ rfl

/-- C4: the batch decomposes filewise — every input file gets its own
outcome entry, computed from that file's own fate alone, and the counters
count those outcomes, so no per-file failure aborts the batch or leaks
into another file's result; concretely, with file A's only endpoint
failing and file B's only endpoint succeeding, the batch reports
`successful = 1, failed = 1` and B's outcome is unaffected. -/
theorem per_file_failure_isolation (pk : String) (files : List FileEntry)
    (servers : List String) (fate : FileEntry → FileFate) (r : BatchResults)
    (h : processUploads (some pk) files servers fate = Except.ok (some r)) :
    (r.fileResults = files.map (fun f => fileOutcome servers (fate f) f) ∧
     r.successful =
       files.countP (fun f => (fileOutcome servers (fate f) f).success) ∧
     r.failed =
       files.countP (fun f => !(fileOutcome servers (fate f) f).success)) ∧
    processUploads (some "pk0") [sampleFileA, sampleFileB] ["s1"]
        (fun f =>
          if f.remotePath == "/a.html" then
            FileFate.uploadRuns (fun _ => false) false
          else FileFate.uploadRuns (fun _ => true) false) =
      Except.ok (some ⟨1, 1, [⟨"/a.html", false, 0, 1⟩, ⟨"/b.html", true, 1, 1⟩]⟩) := by
  refine ⟨?_, rfl⟩
  rw [processUploads_ok_some pk files servers fate r h]
  exact ⟨rfl, rfl, rfl⟩

/-- Witness for the C4 theorem at a concrete input. -/
theorem per_file_failure_isolation_witness :
    (([⟨"/a.html", false, 0, 1⟩] : List FileResult) =
        [sampleFileA].map
          (fun f => fileOutcome ["s1"] (FileFate.readError) f) ∧
     (0 : Nat) =
       [sampleFileA].countP
         (fun f => (fileOutcome ["s1"] (FileFate.readError) f).success) ∧
     (1 : Nat) =
       [sampleFileA].countP
         (fun f => !(fileOutcome ["s1"] (FileFate.readError) f).success)) ∧
    processUploads (some "pk0") [sampleFileA, sampleFileB] ["s1"]
        (fun f =>
          if f.remotePath == "/a.html" then
            FileFate.uploadRuns (fun _ => false) false
          else FileFate.uploadRuns (fun _ => true) false) =
      Except.ok (some ⟨1, 1, [⟨"/a.html", false, 0, 1⟩, ⟨"/b.html", true, 1, 1⟩]⟩) :=
  per_file_failure_isolation "pk" [sampleFileA] ["s1"]
    (fun _ => FileFate.readError) ⟨0, 1, [⟨"/a.html", false, 0, 1⟩]⟩ rfl

/-- C5: for a purged file with a pointer record, the retraction call
appears exactly once in the trace, after all per-endpoint deletion calls,
for EVERY deletion/retraction throw oracle (the trace shape on the right
names no oracle); the purge loop concatenates per-file traces, so no
caught failure stops later files; and a throwing retraction only adds a
logged message (the file is not processed again). -/
theorem retract_once_best_effort (delThrows : String → String → Bool)
    (retractThrows : String → Bool) (servers : List String)
    (toDelete : List FileEntry) (f : FileEntry) (h : f.hasEvent = true) :
    (purgeFile delThrows retractThrows servers f).1 =
      PurgeCall.signAuth f.sha256 ::
        (servers.map
          (fun s => PurgeCall.blobDelete s f.sha256 (createDeleteAuth f.sha256)) ++
         [PurgeCall.retractEvent f.eventId]) ∧
    (purgeFile delThrows retractThrows servers f).1.countP isRetractCall = 1 ∧
    (purgeLoop delThrows retractThrows servers toDelete).1 =
      toDelete.flatMap
        (fun g => (purgeFile delThrows retractThrows servers g).1) ∧
    (retractThrows f.eventId = true →
      ("Error deleting event " ++ f.eventId ++ " from the relays.") ∈
        (purgeFile delThrows retractThrows servers f).2) := by
  refine ⟨purgeFile_calls delThrows retractThrows servers f h, ?_, ?_, ?_⟩
  · rw [purgeFile_calls delThrows retractThrows servers f h]
    simp [List.countP_cons, List.countP_append, List.countP_map,
      isRetractCall, Function.comp]
  · rw [purgeLoop_eq]
  · intro hthrow
    simp [purgeFile, h, hthrow]

/-- Witness for the C5 theorem at a concrete input: two endpoints, the
first deletion throwing, the retraction throwing. -/
theorem retract_once_best_effort_witness :
    sampleDeleteFile.hasEvent = true ∧
    ((purgeFile (fun s _ => s == "e1") (fun _ => true) ["e1", "e2"]
        sampleDeleteFile).1 =
      PurgeCall.signAuth sampleDeleteFile.sha256 ::
        (["e1", "e2"].map
          (fun s => PurgeCall.blobDelete s sampleDeleteFile.sha256
            (createDeleteAuth sampleDeleteFile.sha256)) ++
         [PurgeCall.retractEvent sampleDeleteFile.eventId]) ∧
    (purgeFile (fun s _ => s == "e1") (fun _ => true) ["e1", "e2"]
        sampleDeleteFile).1.countP isRetractCall = 1 ∧
    (purgeLoop (fun s _ => s == "e1") (fun _ => true) ["e1", "e2"]
        [sampleDeleteFile]).1 =
      [sampleDeleteFile].flatMap
        (fun g => (purgeFile (fun s _ => s == "e1") (fun _ => true)
          ["e1", "e2"] g).1) ∧
    ((fun _ => true) sampleDeleteFile.eventId = true →
      ("Error deleting event " ++ sampleDeleteFile.eventId ++
          " from the relays.") ∈
        (purgeFile (fun s _ => s == "e1") (fun _ => true) ["e1", "e2"]
          sampleDeleteFile).2)) :=
  ⟨rfl,
   retract_once_best_effort (fun s _ => s == "e1") (fun _ => true)
     ["e1", "e2"] [sampleDeleteFile] sampleDeleteFile rfl⟩

/-- C6: the bounded-concurrency queue (modelled from the spec, since the
`p-limit` dependency is not part of this repository) never has more than
`concurrency` tasks active, whatever the interleaving of submissions and
completions; queued tasks start in submission order (started tasks
followed by the queue always spell the submission order); and an unset
concurrency option resolves to the default of 5. -/
theorem concurrency_cap (concurrency : Nat) (events : List LimitEvent) :
    (runLimit concurrency events).active ≤ concurrency ∧
    (runLimit concurrency events).started ++ (runLimit concurrency events).queue =
      (runLimit concurrency events).submitted ∧
    resolveConcurrency JSNum.undef = JSNum.num 5 :=
  ⟨(runLimit_inv concurrency events).1, (runLimit_inv concurrency events).2,
   rfl⟩

/-- C7: for a purged file with a pointer record, the signing call appears
exactly once in the file's trace, as its very first call (before any
endpoint deletion), every deletion call of the file carries the file's
hash and that single authorization proof, and a deletion call with that
proof is issued against every configured endpoint. -/
theorem sign_once_per_purged_file (delThrows : String → String → Bool)
    (retractThrows : String → Bool) (servers : List String) (f : FileEntry)
    (h : f.hasEvent = true) :
    (purgeFile delThrows retractThrows servers f).1.countP isSignCall = 1 ∧
    (purgeFile delThrows retractThrows servers f).1.head? =
      some (PurgeCall.signAuth f.sha256) ∧
    (purgeFile delThrows retractThrows servers f).1.all
        (fun c =>
          match c with
          | PurgeCall.blobDelete _ sha auth =>
              sha == f.sha256 && auth == createDeleteAuth f.sha256
          | _ => true) = true ∧
    servers.all
        (fun s =>
          (purgeFile delThrows retractThrows servers f).1.contains
            (PurgeCall.blobDelete s f.sha256 (createDeleteAuth f.sha256))) =
      true := by
  rw [purgeFile_calls delThrows retractThrows servers f h]
  refine ⟨?_, rfl, ?_, ?_⟩
  · simp [List.countP_cons, List.countP_append, List.countP_map,
      isSignCall, Function.comp]
  · simp [List.all_cons, List.all_append, List.all_map, Function.comp]
  · simp only [List.all_eq_true]
    intro s hs
    refine List.elem_eq_true_of_mem ?_
    simp only [List.mem_cons, List.mem_append, List.mem_map,
      List.mem_singleton]
    exact Or.inr (Or.inl ⟨s, hs, rfl⟩)

/-- Witness for the C7 theorem at a concrete input. -/
theorem sign_once_per_purged_file_witness :
    sampleDeleteFile.hasEvent = true ∧
    ((purgeFile (fun _ _ => true) (fun _ => false) ["e1", "e2"]
        sampleDeleteFile).1.countP isSignCall = 1 ∧
    (purgeFile (fun _ _ => true) (fun _ => false) ["e1", "e2"]
        sampleDeleteFile).1.head? =
      some (PurgeCall.signAuth sampleDeleteFile.sha256) ∧
    (purgeFile (fun _ _ => true) (fun _ => false) ["e1", "e2"]
        sampleDeleteFile).1.all
        (fun c =>
          match c with
          | PurgeCall.blobDelete _ sha auth =>
              sha == sampleDeleteFile.sha256 &&
                auth == createDeleteAuth sampleDeleteFile.sha256
          | _ => true) = true ∧
    ["e1", "e2"].all
        (fun s =>
          (purgeFile (fun _ _ => true) (fun _ => false) ["e1", "e2"]
            sampleDeleteFile).1.contains
            (PurgeCall.blobDelete s sampleDeleteFile.sha256
              (createDeleteAuth sampleDeleteFile.sha256))) = true) :=
  ⟨rfl,
   sign_once_per_purged_file (fun _ _ => true) (fun _ => false) ["e1", "e2"]
     sampleDeleteFile rfl⟩

/-- C8: a file in the purge set without a pointer record (`file.event`
absent) is skipped entirely: no signing, no endpoint deletion, no
retraction, no log entry, whatever the oracles and endpoints. -/
theorem missing_record_skips_file (delThrows : String → String → Bool)
    (retractThrows : String → Bool) (servers : List String) (f : FileEntry)
    (h : f.hasEvent = false) :
    purgeFile delThrows retractThrows servers f = ([], []) := by
  simp [purgeFile, h]

/-- Witness for the C8 theorem at a concrete input with always-throwing
oracles. -/
theorem missing_record_skips_file_witness :
    sampleOrphanFile.hasEvent = false ∧
    purgeFile (fun _ _ => true) (fun _ => true) ["e1"] sampleOrphanFile =
      ([], []) :=
  ⟨rfl,
   missing_record_skips_file (fun _ _ => true) (fun _ => true) ["e1"]
     sampleOrphanFile rfl⟩

/-- C9: a successful non-empty batch accounts for every input file: the
two counters add up to the number of files, `fileResults` holds exactly
one entry per input file (in submission order, under each file's remote
path), and every entry records the configured endpoint count as
`totalServers`. -/
theorem aggregate_counts_every_file (pk : String) (files : List FileEntry)
    (servers : List String) (fate : FileEntry → FileFate) (r : BatchResults)
    (_hne : files ≠ [])
    (h : processUploads (some pk) files servers fate = Except.ok (some r)) :
    r.successful + r.failed = files.length ∧
    r.fileResults.length = files.length ∧
    r.fileResults.map FileResult.file = files.map FileEntry.remotePath ∧
    r.fileResults.all (fun e => e.totalServers == servers.length) = true := by
  have hr := processUploads_ok_some pk files servers fate r h
  subst hr
  refine ⟨?_, ?_, ?_, ?_⟩
  · exact countP_not_add
      (fun f => (fileOutcome servers (fate f) f).success) files
  · exact List.length_map files _
  · rw [List.map_map]
    exact List.map_congr_left
      (fun f _ => fileOutcome_file servers (fate f) f)
  · simp only [List.all_eq_true, List.mem_map]
    rintro e ⟨f, _, rfl⟩
    simp [fileOutcome_totalServers]

/-- Witness for the C9 theorem at a concrete input. -/
theorem aggregate_counts_every_file_witness :
    ([sampleFileA] : List FileEntry) ≠ [] ∧
    ((⟨0, 1, [⟨"/a.html", false, 0, 1⟩]⟩ : BatchResults).successful +
        (⟨0, 1, [⟨"/a.html", false, 0, 1⟩]⟩ : BatchResults).failed =
      ([sampleFileA] : List FileEntry).length ∧
    (⟨0, 1, [⟨"/a.html", false, 0, 1⟩]⟩ : BatchResults).fileResults.length =
      ([sampleFileA] : List FileEntry).length ∧
    (⟨0, 1, [⟨"/a.html", false, 0, 1⟩]⟩ : BatchResults).fileResults.map
        FileResult.file =
      ([sampleFileA] : List FileEntry).map FileEntry.remotePath ∧
    (⟨0, 1, [⟨"/a.html", false, 0, 1⟩]⟩ : BatchResults).fileResults.all
        (fun e => e.totalServers == (["s1"] : List String).length) = true) :=
  ⟨by simp,
   aggregate_counts_every_file "pk" [sampleFileA] ["s1"]
     (fun _ => FileFate.readError) ⟨0, 1, [⟨"/a.html", false, 0, 1⟩]⟩
     (by simp) rfl⟩

/-- C10: a falsy concurrency option — `undefined`, `NaN` (a non-numeric
string fed to `parseInt`), or `0` — is silently replaced by the default 5
by the `options.concurrency || 5` substitution. -/
theorem falsy_concurrency_defaults (o : JSNum) (h : jsFalsy o = true) :
    resolveConcurrency o = JSNum.num 5 ∧
    resolveConcurrency (JSNum.num 0) = JSNum.num 5 ∧
    resolveConcurrency JSNum.nan = JSNum.num 5 := by
  refine ⟨?_, rfl, rfl⟩
  simp [resolveConcurrency, h]

/-- Witness for the C10 theorem at the concrete option value `0`. -/
theorem falsy_concurrency_defaults_witness :
    jsFalsy (JSNum.num 0) = true ∧
    (resolveConcurrency (JSNum.num 0) = JSNum.num 5 ∧
     resolveConcurrency (JSNum.num 0) = JSNum.num 5 ∧
     resolveConcurrency JSNum.nan = JSNum.num 5) :=
  ⟨rfl, falsy_concurrency_defaults (JSNum.num 0) rfl⟩

end NsiteCli
